import Mathlib

/-! Verification of src/latent/dA.py: a shallow embedding of the denoising
autoencoder class dA, of the climin-driven training loop in train, of the
plot dispatcher, and of the command-line entry point main, with theorems
checking the natural-language specification against it.

Numeric code is modelled over an arbitrary linear ordered field, with the
transcendental functions (log, exp, sqrt) passed as an explicit record of
operations so that the definitions stay executable; the real-number
instantiation used by the analytic theorems plugs in Real.log, Real.exp
and Real.sqrt. Random draws (the theano_rng binomial masks and the numpy
uniform weight samples) are modelled as explicit draw matrices u with one
entry per required uniform draw in [0,1): binomial with n = 1 and success
probability p returns 1 exactly when the uniform draw is below p, and a
numpy uniform(low, high) sample is low + u * (high - low). -/

/-- The transcendental operations the Theano graph uses, passed explicitly
so the model is polymorphic over the scalar field. -/
structure NumOps (α : Type) where
  log : α → α
  exp : α → α
  sqrt : α → α

variable {α : Type} [LinearOrderedField α] {m nv nh : ℕ}

/-- T.nnet.sigmoid, the elementwise logistic function 1 / (1 + exp (-t)). -/
def sigmoid (ops : NumOps α) (t : α) : α := 1 / (1 + ops.exp (-t))

/-- dA.get_corrupted_input (lines 219-241): theano_rng.binomial with
size = input.shape, n = 1, p = 1 - corruption_level, multiplied entrywise
with the input. The binomial mask entry is 1 exactly when the uniform draw
for that entry lies below 1 - corruption_level, else 0. -/
def get_corrupted_input (draws : Fin m → Fin nv → α) (corruption_level : α)
    (input : Fin m → Fin nv → α) : Fin m → Fin nv → α :=
  fun i k => (if draws i k < 1 - corruption_level then (1 : α) else 0) * input i k

/-- The parameters the dA object owns: self.params = [self.W, self.b,
self.b_prime] (line 206). W_prime is deliberately not a field: in the
source it is the derived view self.W.T (line 196), see W_prime below. -/
structure dAParams (nv nh : ℕ) (α : Type) where
  W : Fin nv → Fin nh → α
  b : Fin nh → α
  b_prime : Fin nv → α

/-- Tied weights (line 196): self.W_prime = self.W.T, a derived transpose
view of W, not an independently owned tensor. -/
def W_prime (W : Fin nv → Fin nh → α) : Fin nh → Fin nv → α := fun h k => W k h

/-- dA.get_hidden_values (lines 243-245): sigmoid(T.dot(input, W) + b). -/
def get_hidden_values (ops : NumOps α) (W : Fin nv → Fin nh → α) (b : Fin nh → α)
    (input : Fin m → Fin nv → α) : Fin m → Fin nh → α :=
  fun i h => sigmoid ops ((∑ k, input i k * W k h) + b h)

/-- dA.get_reconstructed_input (lines 247-252):
sigmoid(T.dot(hidden, W_prime) + b_prime), W_prime the transpose view. -/
def get_reconstructed_input (ops : NumOps α) (W : Fin nv → Fin nh → α)
    (b_prime : Fin nv → α) (hidden : Fin m → Fin nh → α) : Fin m → Fin nv → α :=
  fun i k => sigmoid ops ((∑ h, hidden i h * W_prime W h k) + b_prime k)

/-- Decoding as the dA object performs it, reading W and b_prime from the
owned parameter record (so the decode matrix is W_prime of the current W). -/
def dA_decode (ops : NumOps α) (p : dAParams nv nh α)
    (hidden : Fin m → Fin nh → α) : Fin m → Fin nv → α :=
  get_reconstructed_input ops p.W p.b_prime hidden

/-- self.tilde_x = self.get_corrupted_input(self.x, corruption_level)
(line 208). -/
def dA_tilde_x (draws : Fin m → Fin nv → α) (corruption_level : α)
    (x : Fin m → Fin nv → α) : Fin m → Fin nv → α :=
  get_corrupted_input draws corruption_level x

/-- self.y = self.get_hidden_values(self.tilde_x) (line 209). -/
def dA_y (ops : NumOps α) (p : dAParams nv nh α) (corruption_level : α)
    (draws x : Fin m → Fin nv → α) : Fin m → Fin nh → α :=
  get_hidden_values ops p.W p.b (dA_tilde_x draws corruption_level x)

/-- self.z = self.get_reconstructed_input(self.y) (line 210). -/
def dA_z (ops : NumOps α) (p : dAParams nv nh α) (corruption_level : α)
    (draws x : Fin m → Fin nv → α) : Fin m → Fin nv → α :=
  get_reconstructed_input ops p.W p.b_prime (dA_y ops p corruption_level draws x)

/-- self.L = - T.sum(self.x * T.log(self.z) + (1 - self.x) * T.log(1 - self.z),
axis = 1) (line 211): the loss compares z against the original uncorrupted
self.x, not against self.tilde_x, and sums over the feature axis. -/
def dA_L (ops : NumOps α) (p : dAParams nv nh α) (corruption_level : α)
    (draws x : Fin m → Fin nv → α) : Fin m → α :=
  fun i =>
    -(∑ k, (x i k * ops.log (dA_z ops p corruption_level draws x i k)
      + (1 - x i k) * ops.log (1 - dA_z ops p corruption_level draws x i k)))

/-- self.L1_hidden_penalty = sparsity_lambda * self.y.mean(axis = 0).sum()
(line 212): the batch-mean activation of each hidden unit, summed over
hidden units, times the sparsity weight. -/
def dA_L1_hidden_penalty (ops : NumOps α) (p : dAParams nv nh α)
    (sparsity_lambda corruption_level : α) (draws x : Fin m → Fin nv → α) : α :=
  sparsity_lambda * ∑ h, (∑ i, dA_y ops p corruption_level draws x i h) / (m : α)

/-- self.cost = T.mean(self.L) + self.L1_hidden_penalty (line 213). -/
def dA_cost (ops : NumOps α) (p : dAParams nv nh α)
    (sparsity_lambda corruption_level : α) (draws x : Fin m → Fin nv → α) : α :=
  (∑ i, dA_L ops p corruption_level draws x i) / (m : α)
    + dA_L1_hidden_penalty ops p sparsity_lambda corruption_level draws x

/-- Modelled from the spec 4.3: reconstruct(x, corruption_level) =
decode(encode(corrupt(x, corruption_level))). -/
def spec_reconstruct (ops : NumOps α) (p : dAParams nv nh α) (corruption_level : α)
    (draws x : Fin m → Fin nv → α) : Fin m → Fin nv → α :=
  get_reconstructed_input ops p.W p.b_prime
    (get_hidden_values ops p.W p.b (get_corrupted_input draws corruption_level x))

/-- Modelled from the spec 4.4, written out independently of the dA_cost
chain: cost = mean over examples i of
L_i = -sum_k (x_ik log z_ik + (1 - x_ik) log (1 - z_ik)), z the
reconstruction of the corrupted input compared against the ORIGINAL
uncorrupted x, plus sparsity_lambda times the sum over hidden units of the
batch-mean activation of that unit. -/
def spec_cost (ops : NumOps α) (p : dAParams nv nh α)
    (sparsity_lambda corruption_level : α) (draws x : Fin m → Fin nv → α) : α :=
  (∑ i, -(∑ k, (x i k * ops.log (spec_reconstruct ops p corruption_level draws x i k)
      + (1 - x i k) * ops.log (1 - spec_reconstruct ops p corruption_level draws x i k))))
    / (m : α)
  + sparsity_lambda
    * ∑ h, (∑ i,
        get_hidden_values ops p.W p.b (get_corrupted_input draws corruption_level x) i h)
      / (m : α)

/-- The weight matrix sampled in dA.__init__ (lines 161-168): initial_W =
numpy_rng.uniform(low, high, size) with low = -4 sqrt(6 / (n_hidden +
n_visible)) and high = 4 sqrt(6 / (n_hidden + n_visible)); a numpy uniform
sample is low + u * (high - low) with the unit draw u in [0,1). -/
def initial_W (ops : NumOps α) (nv nh : ℕ) (u : Fin nv → Fin nh → α) :
    Fin nv → Fin nh → α :=
  fun i j =>
    -(4 * ops.sqrt (6 / ((nh : α) + (nv : α))))
      + u i j * (4 * ops.sqrt (6 / ((nh : α) + (nv : α)))
        - -(4 * ops.sqrt (6 / ((nh : α) + (nv : α)))))

/-- dA.__init__ without externally supplied tensors (lines 155-194): W from
initial_W, bvis = np.zeros(n_visible), bhid = np.zeros(n_hidden), and then
self.b = bhid, self.b_prime = bvis. -/
def dA_init (ops : NumOps α) (nv nh : ℕ) (u : Fin nv → Fin nh → α) :
    dAParams nv nh α :=
  ⟨initial_W ops nv nh u, fun _ => 0, fun _ => 0⟩

/-- The operations of the real field, as Theano evaluates them in exact
arithmetic. -/
noncomputable def realOps : NumOps ℝ := ⟨Real.log, Real.exp, Real.sqrt⟩

/-- One pass of the for-info-in-opt loop of train (lines 369-377). Each
iteration the climin optimizer performs one parameter-update step and
yields info with n_iter equal to the number of steps so far; the body then
computes iter = n_iter - 1 and epoch = iter // n_train_batches + 1 and
breaks once epoch >= training_epochs. When batch_size was None the local
n_train_batches was never assigned (only batches_per_pass was, line 347),
so the first body evaluation raises UnboundLocalError. The fuel argument
only bounds the recursion depth of the model; the theorems below show the
result is fuel-independent once fuel is large enough. Returns the number
of optimizer steps performed when the break is reached. -/
def loopIter (ntb : Option ℕ) (training_epochs : ℕ) : ℕ → ℕ → Except String ℕ
  | 0, _ => Except.error "model ran out of fuel"
  | fuel + 1, k =>
    let n_iter := k + 1
    match ntb with
    | none =>
        Except.error
          "UnboundLocalError: local variable n_train_batches referenced before assignment"
    | some nb =>
        let epoch := (n_iter - 1) / nb + 1
        if training_epochs ≤ epoch then Except.ok n_iter
        else loopIter ntb training_epochs fuel n_iter

/-- What train returned and did: its Python return value, the number of
optimizer steps performed (each step is exactly one parameter update), and
the error message it printed, if any. -/
structure TrainResult where
  retVal : Int
  steps : ℕ
  errMsg : Option String

/-- train (lines 285-389), reduced to the decisions the claims are about.
In source order: n_train_batches = train_set_x.shape[0] // batch_size is
assigned only in the batch_size-is-not-None branch (lines 344-352); an
optimizer name other than gd and rmsprop prints unknown optimizer and
returns -1 before any optimizer object or step exists (lines 354-362);
otherwise the loop runs and train returns 1 (line 389). train_set_size is
the row count of train_set_x; data loading, timing and pickling are
external collaborators and not modelled. -/
def trainModel (optimizer : String) (batch_size : Option ℕ)
    (train_set_size training_epochs fuel : ℕ) : Except String TrainResult :=
  let ntb : Option ℕ :=
    match batch_size with
    | none => none
    | some bs => some (train_set_size / bs)
  if optimizer = "gd" ∨ optimizer = "rmsprop" then
    match loopIter ntb training_epochs fuel 0 with
    | Except.ok k => Except.ok ⟨1, k, none⟩
    | Except.error e => Except.error e
  else
    Except.ok ⟨-1, 0, some "unknown optimizer"⟩

/-- Python %-formatting as the source uses it at lines 407 and 428, for a
format string with a single argument: a conversion specifier is a % and
the character after it; a % that ends the format string raises
ValueError: incomplete format — which is exactly what happens for
"unknown command: %" and "dot't know how to plot %", whose intended %s is
missing its s. -/
def percentFormat (arg : String) : List Char → Except String String
  | [] => Except.ok ""
  | ['%'] => Except.error "ValueError: incomplete format"
  | '%' :: c :: rest =>
    if c = 's' then Except.map (fun s => arg ++ s) (percentFormat arg rest)
    else if c = '%' then Except.map (fun s => "%" ++ s) (percentFormat arg rest)
    else Except.error "ValueError: unsupported format character"
  | c :: rest => Except.map (fun s => String.mk [c] ++ s) (percentFormat arg rest)

/-- fmt % arg for a string fmt. -/
def pyFormat (fmt arg : String) : Except String String :=
  percentFormat arg fmt.data

/-- What a modelled run printed on stdout, in order, and how it ended: a
Python return value (some n for an int, none for None) or an uncaught
exception carried as Except.error. -/
structure RunOut where
  prints : List String
  outcome : Except String (Option Int)

/-- plot (lines 391-409): a recognized element prints its banner and falls
off the end of the function, so Python returns None; any other element
evaluates "dot't know how to plot %" % element, which raises ValueError
while building the first message, before anything is printed. Loading the
pickled model and the image output are external collaborators and are not
modelled. -/
def plotModel (element : String) : RunOut :=
  if element = "reconstructions" then ⟨["... plot reconstructions"], Except.ok none⟩
  else if element = "repflds" then ⟨["... plot receptive fields"], Except.ok none⟩
  else
    match pyFormat "dot't know how to plot %" element with
    | Except.ok s =>
        ⟨[s, "either use 'reconstructions' or 'repflds'"], Except.ok (some (-1))⟩
    | Except.error e => ⟨[], Except.error e⟩

/-- main (lines 411-430), with train's external inputs (training-set row
count and model fuel) passed through. The train subcommand calls train()
with its defaults, so optimizer rmsprop, batch_size 600, training_epochs
15. An unknown command evaluates "unknown command: %" % command, which
raises ValueError while building the message, before either usage line is
printed. -/
def mainModel (argv : List String) (train_set_size fuel : ℕ) : RunOut :=
  match argv with
  | [] => ⟨["please call with at least 1 argument"], Except.ok (some (-1))⟩
  | command :: rest =>
    if command = "train" then
      match trainModel "rmsprop" (some 600) train_set_size 15 fuel with
      | Except.ok r => ⟨[], Except.ok (some r.retVal)⟩
      | Except.error e => ⟨[], Except.error e⟩
    else if command = "plot" then
      match rest with
      | [] => ⟨["please define what element to plot"], Except.ok (some (-1))⟩
      | element :: _ => plotModel element
    else
      match pyFormat "unknown command: %" command with
      | Except.ok s => ⟨[s, "either use 'train' or 'plot'"], Except.ok (some (-1))⟩
      | Except.error e => ⟨[], Except.error e⟩

/-- sys.exit applied to what main returned (line 433): an int exits with
that value reduced modulo 256 by the operating system (so -1 becomes exit
status 255), None exits with status 0, and an uncaught exception
terminates the process with status 1. -/
def exitStatus : Except String (Option Int) → ℕ
  | Except.error _ => 1
  | Except.ok none => 0
  | Except.ok (some n) => (n % 256).toNat

/-! ## Theorems about the claims -/

/-- C1: for every input batch x with entries in [0,1] and any parameters,
the scalar cost built in dA.__init__ (lines 208-217) equals
mean_i L_i + sparsity_lambda * sum_h mean_i y_ih, where
L_i = -sum_k (x_ik log z_ik + (1 - x_ik) log (1 - z_ik)) is summed over
the feature dimension, z is the reconstruction obtained from the corrupted
input, and the loss compares z against the ORIGINAL uncorrupted x_i. -/
theorem C1_cost_formula (ops : NumOps α) (p : dAParams nv nh α)
    (sparsity_lambda corruption_level : α) (draws x : Fin m → Fin nv → α)
    (hx : ∀ i k, 0 ≤ x i k ∧ x i k ≤ 1) :
    dA_cost ops p sparsity_lambda corruption_level draws x
      = spec_cost ops p sparsity_lambda corruption_level draws x := rfl

/-- C1 witness: the cost identity instantiated at a concrete one-example,
one-feature batch over ℚ. -/
theorem C1_cost_formula_witness :
    (∀ i k : Fin 1, 0 ≤ (0 : ℚ) ∧ (0 : ℚ) ≤ 1) ∧
    dA_cost ⟨fun t => t, fun t => t, fun t => t⟩
        (⟨fun _ _ => 1, fun _ => 0, fun _ => 0⟩ : dAParams 1 1 ℚ) 0 0
        (fun _ _ => 0) (fun _ _ => (0 : ℚ) : Fin 1 → Fin 1 → ℚ)
      = spec_cost ⟨fun t => t, fun t => t, fun t => t⟩
        (⟨fun _ _ => 1, fun _ => 0, fun _ => 0⟩ : dAParams 1 1 ℚ) 0 0
        (fun _ _ => 0) (fun _ _ => (0 : ℚ) : Fin 1 → Fin 1 → ℚ) :=
  ⟨fun _ _ => by norm_num,
   C1_cost_formula _ _ _ _ _ _ (fun _ _ => by norm_num)⟩

/-- C5: corrupting with corruption_level = 0 is the identity on the batch,
for every batch and every state of the random source (that is, every
matrix of uniform draws in [0,1)): the binomial mask is 1 everywhere. -/
theorem C5_corrupt_zero (x draws : Fin m → Fin nv → α)
    (hdraws : ∀ i k, 0 ≤ draws i k ∧ draws i k < 1) :
    get_corrupted_input draws 0 x = x := by
  funext i k
  have h : draws i k < 1 - 0 := by simpa using (hdraws i k).2
  simp only [get_corrupted_input, if_pos h, one_mul]

/-- C5 witness: corruption level 0 leaves a concrete batch over ℚ
unchanged under a concrete draw. -/
theorem C5_corrupt_zero_witness :
    (∀ i k : Fin 1, 0 ≤ (0 : ℚ) ∧ (0 : ℚ) < 1) ∧
    get_corrupted_input (fun _ _ => 0) 0 (fun _ _ => (3 : ℚ) : Fin 1 → Fin 1 → ℚ)
      = fun _ _ => 3 :=
  ⟨fun _ _ => by norm_num, C5_corrupt_zero _ _ (fun _ _ => by norm_num)⟩

/-- C6: the decode matrix is the derived transpose of the owned encode
matrix — the parameter record owns only W, b and b_prime, and replacing W
by any new matrix makes the decoding operation
sigmoid(y W_prime + b_prime) use the transpose of the new W at once, with
no independently owned decode tensor to synchronize. -/
theorem C6_tied_weights (ops : NumOps α) (p : dAParams nv nh α)
    (Wnew : Fin nv → Fin nh → α) (y : Fin m → Fin nh → α) :
    W_prime p.W = (fun h k => p.W k h) ∧
    dA_decode ops ⟨Wnew, p.b, p.b_prime⟩ y
      = fun i k => sigmoid ops ((∑ h, y i h * Wnew k h) + p.b_prime k) :=
  ⟨rfl, rfl⟩

/-- The break at lines 376-377 fires at the first step whose 1-based epoch
number reaches training_epochs: with nb = n_train_batches ≥ 1 and
training_epochs ≥ 1, the loop stops after exactly
(training_epochs - 1) * nb + 1 optimizer steps, for any sufficient fuel. -/
theorem loopIter_reaches (nb training_epochs : ℕ) (hnb : 1 ≤ nb) :
    ∀ fuel k, k < (training_epochs - 1) * nb + 1 →
      (training_epochs - 1) * nb + 1 ≤ k + fuel →
      loopIter (some nb) training_epochs fuel k
        = Except.ok ((training_epochs - 1) * nb + 1) := by
  intro fuel
  induction fuel with
  | zero => intro k hk hle; omega
  | succ fuel ih =>
    intro k hk hle
    simp only [loopIter, Nat.add_sub_cancel]
    by_cases hcond : training_epochs ≤ k / nb + 1
    · rw [if_pos hcond]
      have h1 : training_epochs - 1 ≤ k / nb := Nat.sub_le_iff_le_add.mpr hcond
      have h2 : (training_epochs - 1) * nb ≤ k := (Nat.le_div_iff_mul_le hnb).mp h1
      have h3 : k = (training_epochs - 1) * nb :=
        Nat.le_antisymm (Nat.lt_succ_iff.mp hk) h2
      rw [h3]
    · rw [if_neg hcond]
      have h0 : k / nb + 1 < training_epochs := Nat.lt_of_not_le hcond
      have h1 : k / nb < training_epochs - 1 := Nat.lt_sub_of_add_lt h0
      have h2 : k < (training_epochs - 1) * nb := (Nat.div_lt_iff_lt_mul hnb).mp h1
      exact ih (k + 1) (Nat.succ_lt_succ h2) (by omega)

/-- C2 (amended): a run with a set batch size and a recognized optimizer
terminates only through the break at line 376, after
(training_epochs - 1) * floor(train_set_size / batch_size) + 1 optimizer
steps — that is after training_epochs - 1 complete epochs plus the first
step of the final epoch, not after training_epochs complete epochs; the
result is independent of any further fuel, so no other condition ends the
loop. -/
theorem C2_train_steps (optimizer : String) (bs train_set_size training_epochs fuel : ℕ)
    (hopt : optimizer = "gd" ∨ optimizer = "rmsprop")
    (hnb : 1 ≤ train_set_size / bs)
    (hfuel : (training_epochs - 1) * (train_set_size / bs) + 1 ≤ fuel) :
    trainModel optimizer (some bs) train_set_size training_epochs fuel
      = Except.ok ⟨1, (training_epochs - 1) * (train_set_size / bs) + 1, none⟩ := by
  have h := loopIter_reaches (train_set_size / bs) training_epochs hnb fuel 0
    (by omega) (by omega)
  simp only [trainModel]
  rw [if_pos hopt, h]

/-- C2 witness: with optimizer gd, batch size 2, a 4-row training set and
training_epochs 2 the loop stops after 3 = (2 - 1) * 2 + 1 steps. -/
theorem C2_train_steps_witness :
    ("gd" = "gd" ∨ "gd" = "rmsprop") ∧ 1 ≤ 4 / 2 ∧ (2 - 1) * (4 / 2) + 1 ≤ 10 ∧
    trainModel "gd" (some 2) 4 2 10 = Except.ok ⟨1, (2 - 1) * (4 / 2) + 1, none⟩ :=
  ⟨Or.inl rfl, by norm_num, by norm_num,
   C2_train_steps "gd" 2 4 2 10 (Or.inl rfl) (by norm_num) (by norm_num)⟩

/-- C2 counterexample: at batch size 2, train set size 4 (so 4 / 2 = 2
steps per epoch) and training_epochs 2, the code performs 3 optimizer
steps, not the 2 * 2 = 4 steps of 2 complete epochs the claim demands: the
break fires on the first step of the final epoch. -/
theorem C2_counterexample :
    trainModel "gd" (some 2) 4 2 10 = Except.ok ⟨1, 3, none⟩ ∧ 3 ≠ 2 * (4 / 2) := by
  exact ⟨rfl, by norm_num⟩

/-- C3: calling train with batch_size None does not run to completion: the
batch_size-is-None branch assigns batches_per_pass but never
n_train_batches, so the first loop body evaluation raises
UnboundLocalError (after the optimizer has already performed one step)
instead of cycling the full split until the epoch target. -/
theorem C3_batch_none_raises (train_set_size training_epochs fuel : ℕ) :
    trainModel "rmsprop" none train_set_size training_epochs (fuel + 1)
      = Except.error
          "UnboundLocalError: local variable n_train_batches referenced before assignment" :=
  rfl

/-- C4: any optimizer name other than gd and rmsprop is rejected at lines
360-362, before any optimizer object exists: the message unknown optimizer
is printed, -1 is returned, and zero optimizer steps (hence zero parameter
updates) are performed. -/
theorem C4_unknown_optimizer (optimizer : String) (batch_size : Option ℕ)
    (train_set_size training_epochs fuel : ℕ)
    (h1 : optimizer ≠ "gd") (h2 : optimizer ≠ "rmsprop") :
    trainModel optimizer batch_size train_set_size training_epochs fuel
      = Except.ok ⟨-1, 0, some "unknown optimizer"⟩ := by
  have hcond : ¬(optimizer = "gd" ∨ optimizer = "rmsprop") := by
    rintro (h | h)
    · exact h1 h
    · exact h2 h
  simp only [trainModel]
  rw [if_neg hcond]

/-- C4 witness: optimizer adam is rejected with zero steps. -/
theorem C4_unknown_optimizer_witness :
    ("adam" ≠ "gd") ∧ ("adam" ≠ "rmsprop") ∧
    trainModel "adam" (some 600) 50000 15 100
      = Except.ok ⟨-1, 0, some "unknown optimizer"⟩ :=
  ⟨by decide, by decide,
   C4_unknown_optimizer "adam" (some 600) 50000 15 100 (by decide) (by decide)⟩

/-- Over the reals the logistic function is strictly positive: its
denominator 1 + exp (-t) is positive. -/
theorem realSigmoid_pos (t : ℝ) : 0 < sigmoid realOps t := by
  have h := Real.exp_pos (-t)
  simp only [sigmoid, realOps]
  positivity

/-- Over the reals the logistic function is strictly below one: its
denominator exceeds its numerator. -/
theorem realSigmoid_lt_one (t : ℝ) : sigmoid realOps t < 1 := by
  have h := Real.exp_pos (-t)
  simp only [sigmoid, realOps]
  rw [div_lt_one (by linarith)]
  linarith

/-- Every hidden activation self.y lies strictly in (0,1). -/
theorem dA_y_mem (p : dAParams nv nh ℝ) (corruption_level : ℝ)
    (draws x : Fin m → Fin nv → ℝ) (i : Fin m) (h : Fin nh) :
    0 < dA_y realOps p corruption_level draws x i h ∧
      dA_y realOps p corruption_level draws x i h < 1 := by
  simp only [dA_y, get_hidden_values]
  exact ⟨realSigmoid_pos _, realSigmoid_lt_one _⟩

/-- Every reconstruction entry self.z lies strictly in (0,1). -/
theorem dA_z_mem (p : dAParams nv nh ℝ) (corruption_level : ℝ)
    (draws x : Fin m → Fin nv → ℝ) (i : Fin m) (k : Fin nv) :
    0 < dA_z realOps p corruption_level draws x i k ∧
      dA_z realOps p corruption_level draws x i k < 1 := by
  simp only [dA_z, get_reconstructed_input]
  exact ⟨realSigmoid_pos _, realSigmoid_lt_one _⟩

/-- Each per-example cross-entropy term self.L is non-negative when the
example's entries lie in [0,1]: both log factors are negative and both
coefficients non-negative. -/
theorem dA_L_nonneg (p : dAParams nv nh ℝ) (corruption_level : ℝ)
    (draws x : Fin m → Fin nv → ℝ)
    (hx : ∀ i k, 0 ≤ x i k ∧ x i k ≤ 1) (i : Fin m) :
    0 ≤ dA_L realOps p corruption_level draws x i := by
  rw [dA_L, neg_nonneg]
  apply Finset.sum_nonpos
  intro k _
  obtain ⟨hz0, hz1⟩ := dA_z_mem p corruption_level draws x i k
  have hl1 : Real.log (dA_z realOps p corruption_level draws x i k) < 0 :=
    Real.log_neg hz0 hz1
  have hl2 : Real.log (1 - dA_z realOps p corruption_level draws x i k) < 0 :=
    Real.log_neg (by linarith) (by linarith)
  have hx1 := (hx i k).1
  have hx2 := (hx i k).2
  have t1 : x i k * Real.log (dA_z realOps p corruption_level draws x i k) ≤ 0 :=
    mul_nonpos_iff.mpr (Or.inl ⟨hx1, hl1.le⟩)
  have t2 : (1 - x i k)
      * Real.log (1 - dA_z realOps p corruption_level draws x i k) ≤ 0 :=
    mul_nonpos_iff.mpr (Or.inl ⟨by linarith, hl2.le⟩)
  show x i k * Real.log (dA_z realOps p corruption_level draws x i k)
      + (1 - x i k) * Real.log (1 - dA_z realOps p corruption_level draws x i k) ≤ 0
  linarith

/-- C8: for every batch with entries in [0,1] and any (finite) real
parameters and a non-negative sparsity weight, the scalar cost is
non-negative: the mean cross-entropy is ≥ 0 because reconstructions lie in
(0,1), and the sparsity penalty is ≥ 0 because hidden activations lie in
(0,1). -/
theorem C8_cost_nonneg (p : dAParams nv nh ℝ)
    (sparsity_lambda corruption_level : ℝ) (draws x : Fin m → Fin nv → ℝ)
    (hx : ∀ i k, 0 ≤ x i k ∧ x i k ≤ 1) (hlam : 0 ≤ sparsity_lambda) :
    0 ≤ dA_cost realOps p sparsity_lambda corruption_level draws x := by
  rw [dA_cost]
  apply add_nonneg
  · apply div_nonneg _ (Nat.cast_nonneg m)
    exact Finset.sum_nonneg fun i _ => dA_L_nonneg p corruption_level draws x hx i
  · rw [dA_L1_hidden_penalty]
    apply mul_nonneg hlam
    apply Finset.sum_nonneg
    intro h _
    apply div_nonneg _ (Nat.cast_nonneg m)
    exact Finset.sum_nonneg fun i _ => (dA_y_mem p corruption_level draws x i h).1.le

/-- C8 witness: the cost of the all-zeros one-by-one configuration is
non-negative. -/
theorem C8_cost_nonneg_witness :
    (∀ i k : Fin 1, 0 ≤ (0 : ℝ) ∧ (0 : ℝ) ≤ 1) ∧ 0 ≤ (0 : ℝ) ∧
    0 ≤ dA_cost realOps (⟨fun _ _ => 0, fun _ => 0, fun _ => 0⟩ : dAParams 1 1 ℝ)
        0 0 (fun _ _ => 0) (fun _ _ => (0 : ℝ) : Fin 1 → Fin 1 → ℝ) :=
  ⟨fun _ _ => by norm_num, by norm_num,
   C8_cost_nonneg _ _ _ _ _ (fun _ _ => by norm_num) (by norm_num)⟩

/-- C7: constructing the model without externally supplied tensors makes b
the all-zero vector of length n_hidden and b_prime the all-zero vector of
length n_visible, and every entry of W lies within
[-4 sqrt(6 / (n_hidden + n_visible)), 4 sqrt(6 / (n_hidden + n_visible))],
for every matrix of unit uniform draws in [0,1). -/
theorem C7_init_state (nv nh : ℕ) (u : Fin nv → Fin nh → ℝ)
    (hu : ∀ i j, 0 ≤ u i j ∧ u i j < 1) :
    (dA_init realOps nv nh u).b = (fun _ => 0) ∧
    (dA_init realOps nv nh u).b_prime = (fun _ => 0) ∧
    ∀ i j, -(4 * Real.sqrt (6 / ((nh : ℝ) + (nv : ℝ))))
        ≤ (dA_init realOps nv nh u).W i j ∧
      (dA_init realOps nv nh u).W i j ≤ 4 * Real.sqrt (6 / ((nh : ℝ) + (nv : ℝ))) := by
  refine ⟨rfl, rfl, fun i j => ?_⟩
  have hB : 0 ≤ 4 * Real.sqrt (6 / ((nh : ℝ) + (nv : ℝ))) := by positivity
  have h1 := (hu i j).1
  have h2 := (hu i j).2
  have hu2 : 0 ≤ u i j * (2 * (4 * Real.sqrt (6 / ((nh : ℝ) + (nv : ℝ))))) :=
    mul_nonneg h1 (by linarith)
  have hu3 : u i j * (2 * (4 * Real.sqrt (6 / ((nh : ℝ) + (nv : ℝ)))))
      ≤ 2 * (4 * Real.sqrt (6 / ((nh : ℝ) + (nv : ℝ)))) := by
    apply mul_le_of_le_one_left (by linarith) h2.le
  simp only [dA_init, initial_W, realOps]
  constructor <;> nlinarith [hB, hu2, hu3]

/-- C7 witness: the construction at n_visible 784, n_hidden 500 with the
all-zero draw matrix satisfies the zero-bias and weight-bound assertions. -/
theorem C7_init_state_witness :
    (∀ (i : Fin 784) (j : Fin 500), 0 ≤ (0 : ℝ) ∧ (0 : ℝ) < 1) ∧
    ((dA_init realOps 784 500 (fun _ _ => 0)).b = (fun _ => 0) ∧
     (dA_init realOps 784 500 (fun _ _ => 0)).b_prime = (fun _ => 0) ∧
     ∀ i j, -(4 * Real.sqrt (6 / ((500 : ℝ) + (784 : ℝ))))
         ≤ (dA_init realOps 784 500 (fun _ _ => 0)).W i j ∧
       (dA_init realOps 784 500 (fun _ _ => 0)).W i j
         ≤ 4 * Real.sqrt (6 / ((500 : ℝ) + (784 : ℝ)))) :=
  ⟨fun _ _ => by norm_num,
   by
    have h := C7_init_state 784 500 (fun _ _ => 0) (fun _ _ => by norm_num)
    simpa using h⟩

/-- C9: the missing-argument paths behave as claimed — no subcommand at all
prints its message and returns -1 (exit status 255), plot without a target
likewise — but an unrecognized subcommand does not: evaluating
"unknown command: %" % command raises ValueError: incomplete format (the
format string ends in a bare %, the intended s of %s is missing), so
nothing is printed, neither usage line appears, and the process dies with
the uncaught exception (exit status 1) instead of the usage message. -/
theorem C9_unknown_command_raises :
    (mainModel ["foo"] 50000 100).prints = [] ∧
    (mainModel ["foo"] 50000 100).outcome
      = Except.error "ValueError: incomplete format" ∧
    mainModel [] 50000 100
      = ⟨["please call with at least 1 argument"], Except.ok (some (-1))⟩ ∧
    mainModel ["plot"] 50000 100
      = ⟨["please define what element to plot"], Except.ok (some (-1))⟩ ∧
    exitStatus (mainModel ["foo"] 50000 100).outcome = 1 :=
  ⟨rfl, rfl, rfl, rfl, rfl⟩

/-- C10: when training completes, train returns 1 (line 389), main hands
that value back (line 419), and sys.exit(main(...)) (line 433) therefore
ends the process with exit status 1 — non-zero even though the run
succeeded, the same class of status the spec reserves for errors. -/
theorem C10_train_exit_nonzero (rest : List String) (train_set_size fuel : ℕ)
    (hnb : 1 ≤ train_set_size / 600)
    (hfuel : 14 * (train_set_size / 600) + 1 ≤ fuel) :
    (mainModel ("train" :: rest) train_set_size fuel).outcome
      = Except.ok (some 1) ∧
    exitStatus (mainModel ("train" :: rest) train_set_size fuel).outcome ≠ 0 := by
  have h := loopIter_reaches (train_set_size / 600) 15 hnb fuel 0
    (by omega) (by omega)
  have htrain : trainModel "rmsprop" (some 600) train_set_size 15 fuel
      = Except.ok ⟨1, (15 - 1) * (train_set_size / 600) + 1, none⟩ := by
    simp [trainModel, h]
  have hmain : mainModel ("train" :: rest) train_set_size fuel
      = ⟨[], Except.ok (some 1)⟩ := by
    show (match trainModel "rmsprop" (some 600) train_set_size 15 fuel with
      | Except.ok r => (⟨[], Except.ok (some r.retVal)⟩ : RunOut)
      | Except.error e => ⟨[], Except.error e⟩) = ⟨[], Except.ok (some 1)⟩
    rw [htrain]
  rw [hmain]
  exact ⟨rfl, by decide⟩

/-- C10 witness: a 600-row training set (one minibatch per epoch) trains to
completion and the process still exits non-zero. -/
theorem C10_train_exit_nonzero_witness :
    1 ≤ 600 / 600 ∧ 14 * (600 / 600) + 1 ≤ 20 ∧
    ((mainModel ["train"] 600 20).outcome = Except.ok (some 1) ∧
     exitStatus (mainModel ["train"] 600 20).outcome ≠ 0) :=
  ⟨by norm_num, by norm_num,
   C10_train_exit_nonzero [] 600 20 (by norm_num) (by norm_num)⟩
